import Mathlib

/-!
Shallow embedding of the signaling core of src/index.js (a socket.io
presence and call-signaling relay).

State of the server:
  let onlineUsers = [];            -- array of { userId, name, socketId }
  const activeCalls = new Map();   -- Map from user id to { with, socketId }

Event payload fields arrive from the client and may be absent, so they are
modelled as Option String (none is the JS undefined).  JS Map keys may be
undefined as well, so the ledger is keyed by Option String.  The JS with
field of a call record is named withPeer here because with is a reserved
word in Lean.
-/

/-- An entry of the onlineUsers array: { userId, name, socketId }.
The userId is validated truthy on join, so it is a plain String; the name
field is taken from the payload unchecked, so it may be absent. -/
structure OnlineUser where
  userId : String
  name : Option String
  socketId : String
deriving DecidableEq, Repr

/-- A value of the activeCalls map: { with, socketId }.  Both fields come
from event payloads (or socket.id), so they may be absent. -/
structure CallRecord where
  withPeer : Option String
  socketId : Option String
deriving DecidableEq, Repr

/-- The activeCalls JS Map: association list in insertion order, keyed by
a possibly-undefined user id. -/
abbrev Ledger := List (Option String × CallRecord)

/-- The mutable state of the relay process. -/
structure ServerState where
  onlineUsers : List OnlineUser
  activeCalls : Ledger
deriving DecidableEq, Repr

/-- JS Map.prototype.set: overwrite the entry at the key in place if
present, otherwise append at the end. -/
def mapSet (m : Ledger) (k : Option String) (v : CallRecord) : Ledger :=
  match m with
  | [] => [(k, v)]
  | p :: rest => if p.1 == k then (k, v) :: rest else p :: mapSet rest k v

/-- JS Map.prototype.delete: remove the entry at the key. -/
def mapDelete (m : Ledger) (k : Option String) : Ledger :=
  m.filter (fun p => !(p.1 == k))

/-- JS Map.prototype.has. -/
def mapHas (m : Ledger) (k : Option String) : Bool :=
  m.any (fun p => p.1 == k)

/-- JS Map.prototype.get. -/
def mapGet (m : Ledger) (k : Option String) : Option CallRecord :=
  (m.find? (fun p => p.1 == k)).map (fun p => p.2)

/-- The Call Ledger busy test of the spec: activeCalls.has(userId). -/
def isBusy (m : Ledger) (k : Option String) : Bool :=
  mapHas m k

/-- Where an outbound emit is routed. -/
inductive Target where
  /-- socket.emit(...): directly to the connection handling the event. -/
  | self : Target
  /-- io.to(room).emit(...): to the room (here always a socket id room). -/
  | room : Option String → Target
  /-- io.emit(...): to every connected client. -/
  | all : Target
  /-- socket.broadcast.emit(...): to every client but the handling one. -/
  | others : Target
deriving DecidableEq, Repr

/-- The payload of an outbound emit, one constructor per payload shape
appearing in src/index.js. -/
inductive Payload where
  /-- { message } -/
  | msg : String → Payload
  /-- { from, name, email, profilepic } (incomingCallWhileBusy) -/
  | callerInfo : Option String → Option String → Option String → Option String → Payload
  /-- { signal, from, name, email, profilepic } (callToUser) -/
  | callSignal : Option String → Option String → Option String → Option String → Option String → Payload
  /-- { signal, from } (callAccepted) -/
  | acceptSignal : Option String → Option String → Payload
  /-- { name, profilepic } (callRejected) -/
  | rejectInfo : Option String → Option String → Payload
  /-- { name } (callEnded) -/
  | endedInfo : Option String → Payload
  /-- the full onlineUsers array (online-users broadcast) -/
  | users : List OnlineUser → Payload
  /-- { disUser } (discounnectUser broadcast) -/
  | disUser : String → Payload
deriving DecidableEq, Repr

/-- One outbound emit instruction. -/
structure Emit where
  target : Target
  event : String
  payload : Payload
deriving DecidableEq, Repr

/-- The join payload { id, name }; the whole object may itself be absent. -/
structure JoinPayload where
  id : Option String
  name : Option String
deriving DecidableEq, Repr

/-- Replace the socketId of the first entry whose userId matches, keeping
everything else: the JS existingUser.socketId = socket.id mutation after
onlineUsers.find. -/
def updateFirst (l : List OnlineUser) (uid : String) (sid : String) :
    List OnlineUser :=
  match l with
  | [] => []
  | ou :: rest =>
    if ou.userId == uid then { ou with socketId := sid } :: rest
    else ou :: updateFirst rest uid sid

/-- The registry update of the join handler: find the user by id; on a
hit overwrite the socketId of that entry, on a miss push a new entry at
the end. -/
def joinUsers (l : List OnlineUser) (uid : String) (nm : Option String)
    (sid : String) : List OnlineUser :=
  match l.find? (fun ou => ou.userId == uid) with
  | some _ => updateFirst l uid sid
  | none => l ++ [⟨uid, nm, sid⟩]

/-- The join handler.  Validation: if (!user || !user.id) warn and return
(a missing id and the empty string are both falsy in JS).  Otherwise
update the registry through joinUsers and io.emit("online-users",
onlineUsers).  (socket.join(user.id) touches only socket.io room state
and is not part of the relay state.) -/
def joinHandler (socketId : String) (user : Option JoinPayload)
    (st : ServerState) : ServerState × List Emit :=
  match user with
  | none => (st, [])
  | some u =>
    match u.id with
    | none => (st, [])
    | some uid =>
      if uid = "" then (st, [])
      else
        let newUsers := joinUsers st.onlineUsers uid u.name socketId
        ({ st with onlineUsers := newUsers },
         [⟨Target.all, "online-users", Payload.users newUsers⟩])

/-- The callToUser payload: { callToUserId, signalData, from, name, email,
profilepic } (from is named fromId: from is reserved in Lean). -/
structure CallPayload where
  callToUserId : Option String
  signalData : Option String
  fromId : Option String
  name : Option String
  email : Option String
  profilepic : Option String
deriving DecidableEq, Repr

/-- The callToUser handler: resolve the callee in onlineUsers; if absent
emit userUnavailable to the caller; else if activeCalls.has(callToUserId)
emit userBusy to the caller and incomingCallWhileBusy to the callee
socket; else forward callToUser to the callee socket. -/
def callToUser (data : CallPayload) (st : ServerState) :
    ServerState × List Emit :=
  match st.onlineUsers.find? (fun u => some u.userId == data.callToUserId) with
  | none =>
    (st, [⟨Target.self, "userUnavailable", Payload.msg "User is offline."⟩])
  | some callee =>
    if mapHas st.activeCalls data.callToUserId then
      (st, [⟨Target.self, "userBusy",
             Payload.msg "User is currently in another call."⟩,
            ⟨Target.room (some callee.socketId), "incomingCallWhileBusy",
             Payload.callerInfo data.fromId data.name data.email
               data.profilepic⟩])
    else
      (st, [⟨Target.room (some callee.socketId), "callToUser",
             Payload.callSignal data.signalData data.fromId data.name
               data.email data.profilepic⟩])

/-- The answeredCall payload: { to, signal, from }. -/
structure AnswerPayload where
  toId : Option String
  signal : Option String
  fromId : Option String
deriving DecidableEq, Repr

/-- The answeredCall handler: io.to(data.toId).emit("callAccepted", ...),
then activeCalls.set(data.from, { with: data.toId, socketId: socket.id })
and activeCalls.set(data.toId, { with: data.from, socketId: data.toId }). -/
def answeredCall (socketId : String) (data : AnswerPayload)
    (st : ServerState) : ServerState × List Emit :=
  let calls1 := mapSet st.activeCalls data.fromId ⟨data.toId, some socketId⟩
  let calls2 := mapSet calls1 data.toId ⟨data.fromId, data.toId⟩
  ({ st with activeCalls := calls2 },
   [⟨Target.room data.toId, "callAccepted",
     Payload.acceptSignal data.signal data.fromId⟩])

/-- The reject-call payload: { to, name, profilepic }. -/
structure RejectPayload where
  toId : Option String
  name : Option String
  profilepic : Option String
deriving DecidableEq, Repr

/-- The reject-call handler: forward callRejected; no state change. -/
def rejectCall (data : RejectPayload) (st : ServerState) :
    ServerState × List Emit :=
  (st, [⟨Target.room data.toId, "callRejected",
         Payload.rejectInfo data.name data.profilepic⟩])

/-- The call-ended payload: { to, from, name }. -/
structure EndPayload where
  toId : Option String
  fromId : Option String
  name : Option String
deriving DecidableEq, Repr

/-- The call-ended handler: io.to(data.toId).emit("callEnded", ...), then
activeCalls.delete(data.from); activeCalls.delete(data.toId).  The ids
deleted are the ones in the payload; the ledger is not consulted. -/
def callEnded (data : EndPayload) (st : ServerState) :
    ServerState × List Emit :=
  let calls1 := mapDelete st.activeCalls data.fromId
  let calls2 := mapDelete calls1 data.toId
  ({ st with activeCalls := calls2 },
   [⟨Target.room data.toId, "callEnded", Payload.endedInfo data.name⟩])

/-- The disconnect handler: find the departing user by socketId; if found,
activeCalls.delete(user.userId) and then delete every entry whose with
field equals user.userId; filter the user out of onlineUsers; broadcast
online-users to all and discounnectUser { disUser: socket.id } to the
others. -/
def disconnectHandler (socketId : String) (st : ServerState) :
    ServerState × List Emit :=
  let calls :=
    match st.onlineUsers.find? (fun u => u.socketId == socketId) with
    | some user =>
      let c1 := mapDelete st.activeCalls (some user.userId)
      c1.filter (fun p => !(p.2.withPeer == some user.userId))
    | none => st.activeCalls
  let newUsers := st.onlineUsers.filter (fun u => !(u.socketId == socketId))
  (⟨newUsers, calls⟩,
   [⟨Target.all, "online-users", Payload.users newUsers⟩,
    ⟨Target.others, "discounnectUser", Payload.disUser socketId⟩])

/-- A join event: the socket id of the connection and the payload. -/
abbrev JoinEvent := String × Option JoinPayload

/-- Run a sequence of join events against the initially empty state. -/
def runJoins (evs : List JoinEvent) : ServerState :=
  evs.foldl (fun st e => (joinHandler e.1 e.2 st).1) ⟨[], []⟩

/-- The user id a join event registers, if the payload passes the
(!user || !user.id) validation (undefined and "" are falsy). -/
def validId (user : Option JoinPayload) : Option String :=
  match user with
  | none => none
  | some u =>
    match u.id with
    | none => none
    | some uid => if uid = "" then none else some uid

/-- Number of registry entries carrying a given userId. -/
def countEntries (l : List OnlineUser) (uid : String) : Nat :=
  (l.filter (fun u => u.userId == uid)).length

/-- Socket id of the most recent valid join for a given userId. -/
def lastJoinSocket (evs : List JoinEvent) (uid : String) : Option String :=
  ((evs.filter (fun e => validId e.2 == some uid)).map (fun e => e.1)).getLast?

/-! ### Lemmas about the JS Map operations -/

theorem mapHas_mapSet_self (m : Ledger) (k : Option String) (v : CallRecord) :
    mapHas (mapSet m k v) k = true := by
  induction m with
  | nil => simp [mapSet, mapHas]
  | cons p rest ih =>
    by_cases h : p.1 = k
    · simp [mapSet, mapHas, h]
    · simp only [mapSet]
      rw [if_neg (by simp [h])]
      simp [mapHas] at ih ⊢
      exact Or.inr ih

theorem mapHas_mapSet_ne (m : Ledger) (k j : Option String) (v : CallRecord)
    (h : j ≠ k) : mapHas (mapSet m k v) j = mapHas m j := by
  have hkj : (k == j) = false := beq_eq_false_iff_ne.mpr (Ne.symm h)
  induction m with
  | nil => simp [mapSet, mapHas, hkj]
  | cons p rest ih =>
    simp only [mapSet]
    by_cases hp : p.1 = k
    · rw [if_pos (by simp [hp])]
      simp [mapHas, hp]
    · rw [if_neg (by simp [hp])]
      simp only [mapHas, List.any_cons] at ih ⊢
      rw [ih]

theorem mapHas_mapDelete_self (m : Ledger) (k : Option String) :
    mapHas (mapDelete m k) k = false := by
  induction m with
  | nil => rfl
  | cons p rest ih =>
    simp only [mapDelete, List.filter_cons] at ih ⊢
    by_cases hp : p.1 = k
    · rw [if_neg (by simp [hp])]
      exact ih
    · rw [if_pos (by simp [hp])]
      simp only [mapHas, List.any_cons] at ih ⊢
      rw [ih]
      simp [hp]

theorem mapHas_mapDelete_ne (m : Ledger) (k j : Option String)
    (h : j ≠ k) : mapHas (mapDelete m k) j = mapHas m j := by
  induction m with
  | nil => rfl
  | cons p rest ih =>
    simp only [mapDelete, List.filter_cons] at ih ⊢
    by_cases hp : p.1 = k
    · have hj : (p.1 == j) = false := by
        rw [hp]; exact beq_eq_false_iff_ne.mpr (Ne.symm h)
      rw [if_neg (by simp [hp])]
      simp only [mapHas, List.any_cons] at ih ⊢
      rw [hj, ih, Bool.false_or]
    · rw [if_pos (by simp [hp])]
      simp only [mapHas, List.any_cons] at ih ⊢
      rw [ih]

theorem mapHas_filter_false (m : Ledger) (q : Option String × CallRecord → Bool)
    (k : Option String) (h : mapHas m k = false) :
    mapHas (m.filter q) k = false := by
  rw [Bool.eq_false_iff] at h ⊢
  intro hc
  apply h
  simp only [mapHas, List.any_eq_true] at hc ⊢
  obtain ⟨p, hp, hk⟩ := hc
  exact ⟨p, (List.mem_filter.mp hp).1, hk⟩

/-! ### Lemmas about the online-users registry -/

theorem updateFirst_length (l : List OnlineUser) (uid sid : String) :
    (updateFirst l uid sid).length = l.length := by
  induction l with
  | nil => rfl
  | cons ou rest ih =>
    simp only [updateFirst]
    by_cases h : ou.userId = uid
    · rw [if_pos (by simp [h])]
      simp
    · rw [if_neg (by simp [h])]
      simp [ih]

theorem countEntries_updateFirst (l : List OnlineUser) (uid0 uid sid : String) :
    countEntries (updateFirst l uid0 sid) uid = countEntries l uid := by
  induction l with
  | nil => rfl
  | cons ou rest ih =>
    simp only [updateFirst]
    by_cases h : ou.userId = uid0
    · rw [if_pos (by simp [h])]
      simp only [countEntries, List.filter_cons]
      by_cases hj : ou.userId = uid
      · rw [if_pos (by simp [hj]), if_pos (by simp [hj])]
        simp
      · rw [if_neg (by simp [hj]), if_neg (by simp [hj])]
    · rw [if_neg (by simp [h])]
      simp only [countEntries, List.filter_cons] at ih ⊢
      by_cases hj : ou.userId = uid
      · rw [if_pos (by simp [hj]), if_pos (by simp [hj])]
        simpa using ih
      · rw [if_neg (by simp [hj]), if_neg (by simp [hj])]
        exact ih

theorem find?_updateFirst_ne (l : List OnlineUser) (uid0 uid sid : String)
    (h : uid ≠ uid0) :
    (updateFirst l uid0 sid).find? (fun u => u.userId == uid)
      = l.find? (fun u => u.userId == uid) := by
  induction l with
  | nil => rfl
  | cons ou rest ih =>
    simp only [updateFirst]
    by_cases hp : ou.userId = uid0
    · have hne : (ou.userId == uid) = false := by
        simp [hp, Ne.symm h]
      rw [if_pos (by simp [hp])]
      simp only [List.find?_cons, hne]
    · rw [if_neg (by simp [hp])]
      by_cases hj : ou.userId = uid
      · simp only [List.find?_cons, hj, beq_self_eq_true]
      · have hne : (ou.userId == uid) = false := by simp [hj]
        simp only [List.find?_cons, hne]
        exact ih

theorem find?_updateFirst_self (l : List OnlineUser) (uid sid : String)
    (u0 : OnlineUser) (h : l.find? (fun u => u.userId == uid) = some u0) :
    (updateFirst l uid sid).find? (fun u => u.userId == uid)
      = some ⟨u0.userId, u0.name, sid⟩ := by
  induction l with
  | nil => simp at h
  | cons ou rest ih =>
    by_cases hp : ou.userId = uid
    · rw [List.find?_cons_of_pos _ (by simp [hp])] at h
      injection h with h
      subst h
      simp only [updateFirst]
      rw [if_pos (by simp [hp])]
      rw [List.find?_cons_of_pos _ (by simp [hp])]
    · rw [List.find?_cons_of_neg _ (by simp [hp])] at h
      simp only [updateFirst]
      rw [if_neg (by simp [hp])]
      rw [List.find?_cons_of_neg _ (by simp [hp])]
      exact ih h

theorem countEntries_append_single (l : List OnlineUser) (x : OnlineUser)
    (uid : String) :
    countEntries (l ++ [x]) uid
      = countEntries l uid + (if x.userId = uid then 1 else 0) := by
  simp only [countEntries, List.filter_append, List.length_append]
  congr 1
  by_cases h : x.userId = uid
  · simp [List.filter_cons, h]
  · simp [List.filter_cons, h]

theorem countEntries_eq_zero (l : List OnlineUser) (uid : String)
    (h : l.find? (fun u => u.userId == uid) = none) :
    countEntries l uid = 0 := by
  rw [List.find?_eq_none] at h
  simp only [countEntries, List.length_eq_zero]
  rw [List.filter_eq_nil_iff]
  exact h

theorem countEntries_joinUsers_le (l : List OnlineUser) (uid0 uid : String)
    (nm : Option String) (sid : String) (h : countEntries l uid ≤ 1) :
    countEntries (joinUsers l uid0 nm sid) uid ≤ 1 := by
  simp only [joinUsers]
  cases hf : l.find? (fun ou => ou.userId == uid0) with
  | some u => rw [countEntries_updateFirst]; exact h
  | none =>
    rw [countEntries_append_single]
    by_cases he : uid0 = uid
    · subst he
      rw [countEntries_eq_zero l uid0 hf]
      simp
    · simpa [he] using h

theorem joinUsers_find?_self (l : List OnlineUser) (uid : String)
    (nm : Option String) (sid : String) :
    ((joinUsers l uid nm sid).find? (fun u => u.userId == uid)).map
      (fun u => u.socketId) = some sid := by
  simp only [joinUsers]
  cases hf : l.find? (fun ou => ou.userId == uid) with
  | some u0 => rw [find?_updateFirst_self l uid sid u0 hf]; rfl
  | none =>
    rw [List.find?_append, hf]
    simp [List.find?_cons]

theorem joinUsers_find?_ne (l : List OnlineUser) (uid0 uid : String)
    (nm : Option String) (sid : String) (h : uid ≠ uid0) :
    (joinUsers l uid0 nm sid).find? (fun u => u.userId == uid)
      = l.find? (fun u => u.userId == uid) := by
  simp only [joinUsers]
  cases hf : l.find? (fun ou => ou.userId == uid0) with
  | some u0 => exact find?_updateFirst_ne l uid0 uid sid h
  | none =>
    rw [List.find?_append]
    have hx : List.find? (fun u => u.userId == uid)
        [(⟨uid0, nm, sid⟩ : OnlineUser)] = none := by
      simp [List.find?_cons, Ne.symm h]
    rw [hx]
    cases l.find? (fun u => u.userId == uid) <;> rfl

theorem joinHandler_invalid (s : String) (user : Option JoinPayload)
    (st : ServerState) (h : validId user = none) :
    joinHandler s user st = (st, []) := by
  cases user with
  | none => rfl
  | some u =>
    cases hid : u.id with
    | none => simp [joinHandler, hid]
    | some uid =>
      simp only [validId, hid] at h
      by_cases he : uid = ""
      · simp [joinHandler, hid, he]
      · simp [he] at h

theorem joinHandler_valid (s : String) (u : JoinPayload) (uid : String)
    (st : ServerState) (h : validId (some u) = some uid) :
    joinHandler s (some u) st
      = ({ st with onlineUsers := joinUsers st.onlineUsers uid u.name s },
         [⟨Target.all, "online-users",
           Payload.users (joinUsers st.onlineUsers uid u.name s)⟩]) := by
  cases hid : u.id with
  | none => simp [validId, hid] at h
  | some uid0 =>
    simp only [validId, hid] at h
    by_cases he : uid0 = ""
    · simp [he] at h
    · simp only [he, if_false] at h
      injection h with h
      subst h
      simp [joinHandler, hid, he]

theorem runJoins_concat (evs : List JoinEvent) (e : JoinEvent) :
    runJoins (evs ++ [e]) = (joinHandler e.1 e.2 (runJoins evs)).1 := by
  simp [runJoins, List.foldl_append]

theorem lastJoinSocket_concat (evs : List JoinEvent) (e : JoinEvent)
    (uid : String) :
    lastJoinSocket (evs ++ [e]) uid
      = if validId e.2 = some uid then some e.1 else lastJoinSocket evs uid := by
  simp only [lastJoinSocket, List.filter_append]
  by_cases h : validId e.2 = some uid
  · rw [if_pos h]
    have hx : List.filter (fun e => validId e.2 == some uid) [e] = [e] := by
      simp [h]
    rw [hx, List.map_append]
    simp [List.getLast?_concat]
  · rw [if_neg h]
    have hx : List.filter (fun e => validId e.2 == some uid) [e] = [] := by
      simp [h]
    rw [hx, List.append_nil]

/-! ### Claim theorems: the Connection Registry -/

/-- C2: for every sequence of join events run from the empty state, the
registry contains at most one entry per userId, and the entry found for a
userId (when one exists) carries the socket id of the most recent valid
join for that userId (and exists exactly when such a join occurred). -/
theorem C2_registry_unique_latest (evs : List JoinEvent) (uid : String) :
    countEntries (runJoins evs).onlineUsers uid ≤ 1 ∧
    ((runJoins evs).onlineUsers.find? (fun u => u.userId == uid)).map
      (fun u => u.socketId) = lastJoinSocket evs uid := by
  induction evs using List.reverseRecOn with
  | nil =>
    constructor
    · simp [runJoins, countEntries]
    · simp [runJoins, lastJoinSocket]
  | append_singleton evs e ih =>
    rw [runJoins_concat, lastJoinSocket_concat]
    cases hv : validId e.2 with
    | none =>
      rw [joinHandler_invalid e.1 e.2 _ hv]
      rw [if_neg (by simp [hv])]
      exact ih
    | some uid0 =>
      cases hu : e.2 with
      | none => rw [hu] at hv; simp [validId] at hv
      | some u =>
        rw [hu] at hv
        rw [joinHandler_valid e.1 u uid0 _ hv]
        dsimp only
        by_cases he : uid0 = uid
        · subst he
          rw [if_pos rfl]
          exact ⟨countEntries_joinUsers_le _ _ _ _ _ ih.1,
                 joinUsers_find?_self _ _ _ _⟩
        · rw [if_neg (by simp [he])]
          refine ⟨countEntries_joinUsers_le _ _ _ _ _ ih.1, ?_⟩
          rw [joinUsers_find?_ne _ _ _ _ _ (fun hh => he hh.symm)]
          exact ih.2

/-! ### Claim theorems: the Call Ledger and call teardown -/

/-- Modelled from the spec wording of endCall(userId): look up the record
for userId, capture its peer, delete the record for userId and (if
present) the peer record naming userId back.  This definition is a foil
for comparison only: the source call-ended handler deletes the two ids of
the event payload directly and never consults the ledger. -/
def endCall_claimed (calls : Ledger) (userId : Option String) : Ledger :=
  match mapGet calls userId with
  | none => calls
  | some r =>
    let c1 := mapDelete calls userId
    match mapGet c1 r.withPeer with
    | some pr => if pr.withPeer == userId then mapDelete c1 r.withPeer else c1
    | none => c1

/-- C1 counterexample: with the ledger pairing A with X, a call-ended
event whose payload names from = A but to = Y keeps the X record naming A
as peer (X stays busy), while endCall(A) as described by the claim (look
up the record of A, capture its peer X, delete both) clears the ledger.
The handler deletes the payload ids directly and performs no lookup. -/
theorem C1_counterexample :
    (callEnded ⟨some "Y", some "A", none⟩
        ⟨[], [(some "A", ⟨some "X", some "sA"⟩),
              (some "X", ⟨some "A", some "sX"⟩)]⟩).1.activeCalls
      = [(some "X", ⟨some "A", some "sX"⟩)]
    ∧ isBusy (callEnded ⟨some "Y", some "A", none⟩
        ⟨[], [(some "A", ⟨some "X", some "sA"⟩),
              (some "X", ⟨some "A", some "sX"⟩)]⟩).1.activeCalls (some "X")
      = true
    ∧ endCall_claimed
        [(some "A", ⟨some "X", some "sA"⟩),
         (some "X", ⟨some "A", some "sX"⟩)] (some "A") = [] :=
  ⟨rfl, rfl, rfl⟩

/-- C1 (amended): after answeredCall records the pair (from = caller,
to = callee), isBusy holds for both ids; a subsequent call-ended event
whose payload carries the same from and to deletes both records, making
both free.  The deletion is keyed by the payload fields, not by a lookup
of the caller record and its peer. -/
theorem C1_accept_then_end (st : ServerState) (s : String)
    (caller callee sig nm : Option String) :
    isBusy (answeredCall s ⟨callee, sig, caller⟩ st).1.activeCalls caller
      = true ∧
    isBusy (answeredCall s ⟨callee, sig, caller⟩ st).1.activeCalls callee
      = true ∧
    isBusy (callEnded ⟨callee, caller, nm⟩
        (answeredCall s ⟨callee, sig, caller⟩ st).1).1.activeCalls caller
      = false ∧
    isBusy (callEnded ⟨callee, caller, nm⟩
        (answeredCall s ⟨callee, sig, caller⟩ st).1).1.activeCalls callee
      = false := by
  simp only [answeredCall, callEnded, isBusy]
  refine ⟨?_, mapHas_mapSet_self _ _ _, ?_, mapHas_mapDelete_self _ _⟩
  · by_cases hc : caller = callee
    · subst hc
      exact mapHas_mapSet_self _ _ _
    · rw [mapHas_mapSet_ne _ _ _ _ hc]
      exact mapHas_mapSet_self _ _ _
  · by_cases hc : caller = callee
    · subst hc
      exact mapHas_mapDelete_self _ _
    · rw [mapHas_mapDelete_ne _ _ _ hc]
      exact mapHas_mapDelete_self _ _

/-- C3: when the disconnecting socket belongs to a registered user (the
first registry entry carrying that socketId), after the disconnect
handler no ledger record names that user as peer and the user own record
is gone. -/
theorem C3_disconnect_clears_peer (st : ServerState) (s : String)
    (u0 : OnlineUser)
    (h : st.onlineUsers.find? (fun u => u.socketId == s) = some u0) :
    (∀ p ∈ (disconnectHandler s st).1.activeCalls,
        ¬ p.2.withPeer = some u0.userId) ∧
    mapHas (disconnectHandler s st).1.activeCalls (some u0.userId)
      = false := by
  simp only [disconnectHandler, h]
  constructor
  · intro p hp
    have hq := (List.mem_filter.mp hp).2
    simpa using hq
  · exact mapHas_filter_false _ _ _ (mapHas_mapDelete_self _ _)

/-- C3 witness: user A on socket sA disconnects while a half-open record
for B names A as peer; both the record of A and the record naming A are
gone. -/
theorem C3_witness :
    (∀ p ∈ (disconnectHandler "sA"
        ⟨[⟨"A", none, "sA"⟩],
         [(some "A", ⟨some "B", some "sA"⟩),
          (some "B", ⟨some "A", some "sB"⟩)]⟩).1.activeCalls,
        ¬ p.2.withPeer = some (⟨"A", none, "sA"⟩ : OnlineUser).userId) ∧
    mapHas (disconnectHandler "sA"
        ⟨[⟨"A", none, "sA"⟩],
         [(some "A", ⟨some "B", some "sA"⟩),
          (some "B", ⟨some "A", some "sB"⟩)]⟩).1.activeCalls
      (some (⟨"A", none, "sA"⟩ : OnlineUser).userId) = false :=
  C3_disconnect_clears_peer _ "sA" ⟨"A", none, "sA"⟩ rfl

/-- C4 counterexample: user u joins as Alice from s1 and rejoins as Bob
from s2.  The surviving entry carries the new socket id s2 but still the
old display name Alice, so the displayName is not overwritten. -/
theorem C4_counterexample :
    (runJoins [("s1", some ⟨some "u", some "Alice"⟩),
               ("s2", some ⟨some "u", some "Bob"⟩)]).onlineUsers
      = [⟨"u", some "Alice", "s2"⟩]
    ∧ some "Alice" ≠ some "Bob" :=
  ⟨rfl, by decide⟩

/-- C4 (amended): when join arrives for a userId that already has a
registry entry, only the connectionId of that entry is overwritten; the
displayName keeps its original value, and no second entry is inserted
(the registry length is unchanged). -/
theorem C4_reconnect_socket_only (st : ServerState) (s uid : String)
    (nm : Option String) (u0 : OnlineUser) (hne : uid ≠ "")
    (h : st.onlineUsers.find? (fun u => u.userId == uid) = some u0) :
    (joinHandler s (some ⟨some uid, nm⟩) st).1.onlineUsers.find?
        (fun u => u.userId == uid) = some ⟨u0.userId, u0.name, s⟩ ∧
    (joinHandler s (some ⟨some uid, nm⟩) st).1.onlineUsers.length
      = st.onlineUsers.length := by
  have hv : validId (some ⟨some uid, nm⟩) = some uid := by
    simp [validId, hne]
  rw [joinHandler_valid s ⟨some uid, nm⟩ uid st hv]
  dsimp only
  simp only [joinUsers, h]
  exact ⟨find?_updateFirst_self _ _ _ _ h, updateFirst_length _ _ _⟩

/-- C4 witness: Alice on s1 rejoins as Bob on s2; the entry found for u
keeps the name Alice, carries s2, and the registry stays a single
entry. -/
theorem C4_witness :
    (joinHandler "s2" (some ⟨some "u", some "Bob"⟩)
        ⟨[⟨"u", some "Alice", "s1"⟩], []⟩).1.onlineUsers.find?
        (fun u => u.userId == "u")
      = some ⟨(⟨"u", some "Alice", "s1"⟩ : OnlineUser).userId,
              (⟨"u", some "Alice", "s1"⟩ : OnlineUser).name, "s2"⟩ ∧
    (joinHandler "s2" (some ⟨some "u", some "Bob"⟩)
        ⟨[⟨"u", some "Alice", "s1"⟩], []⟩).1.onlineUsers.length
      = (⟨[⟨"u", some "Alice", "s1"⟩], []⟩ : ServerState).onlineUsers.length :=
  C4_reconnect_socket_only ⟨[⟨"u", some "Alice", "s1"⟩], []⟩ "s2" "u"
    (some "Bob") ⟨"u", some "Alice", "s1"⟩ (by decide) rfl

/-- C5: a callToUser whose callee id resolves to no registry entry yields
exactly one userUnavailable emit to the requesting connection and leaves
the whole state unchanged. -/
theorem C5_unavailable (st : ServerState) (data : CallPayload)
    (h : st.onlineUsers.find?
        (fun u => some u.userId == data.callToUserId) = none) :
    callToUser data st
      = (st, [⟨Target.self, "userUnavailable",
               Payload.msg "User is offline."⟩]) := by
  simp only [callToUser, h]

/-- C5 witness: calling the unregistered id Z from a state with only B
online and an active call in the ledger. -/
theorem C5_witness :
    callToUser ⟨some "Z", none, some "A", none, none, none⟩
        ⟨[⟨"B", none, "sB"⟩], [(some "B", ⟨some "C", some "sB"⟩)]⟩
      = (⟨[⟨"B", none, "sB"⟩], [(some "B", ⟨some "C", some "sB"⟩)]⟩,
         [⟨Target.self, "userUnavailable", Payload.msg "User is offline."⟩]) :=
  C5_unavailable _ _ rfl

/-- C6: a callToUser whose callee is registered and busy yields exactly
userBusy to the requester and incomingCallWhileBusy (carrying the caller
identity fields of the payload) to the callee current socket, and the
state (both registry and ledger) is unchanged. -/
theorem C6_busy (st : ServerState) (data : CallPayload)
    (callee : OnlineUser)
    (hf : st.onlineUsers.find?
        (fun u => some u.userId == data.callToUserId) = some callee)
    (hb : mapHas st.activeCalls data.callToUserId = true) :
    callToUser data st
      = (st, [⟨Target.self, "userBusy",
               Payload.msg "User is currently in another call."⟩,
              ⟨Target.room (some callee.socketId), "incomingCallWhileBusy",
               Payload.callerInfo data.fromId data.name data.email
                 data.profilepic⟩]) := by
  simp only [callToUser, hf, hb, if_true]

/-- C6 witness: A calls B while B is paired with C; the requester gets
userBusy, B gets incomingCallWhileBusy with the identity fields of A, and
the state is untouched. -/
theorem C6_witness :
    callToUser ⟨some "B", none, some "A", some "Ann", some "a@x", some "p"⟩
        ⟨[⟨"B", none, "sB"⟩], [(some "B", ⟨some "C", some "sB"⟩)]⟩
      = (⟨[⟨"B", none, "sB"⟩], [(some "B", ⟨some "C", some "sB"⟩)]⟩,
         [⟨Target.self, "userBusy",
           Payload.msg "User is currently in another call."⟩,
          ⟨Target.room (some "sB"), "incomingCallWhileBusy",
           Payload.callerInfo (some "A") (some "Ann") (some "a@x")
             (some "p")⟩]) :=
  C6_busy _ _ ⟨"B", none, "sB"⟩ rfl rfl

/-- C7 counterexample: the answeredCall event with a missing from field
(a required identity field) is not dropped: it still emits callAccepted
and inserts two ledger records, one keyed by the missing value. -/
theorem C7_counterexample :
    (answeredCall "s1" ⟨some "t", none, none⟩ ⟨[], []⟩).1
      ≠ (⟨[], []⟩ : ServerState)
    ∧ (answeredCall "s1" ⟨some "t", none, none⟩ ⟨[], []⟩).2 ≠ [] := by
  exact ⟨by decide, by decide⟩

/-- C7 (amended): the join handler is the one place identity validation
happens: a join whose payload is absent, lacks an id, or carries the
falsy empty id is dropped with only a logged warning, changing no state
and emitting nothing.  The other handlers perform no such validation. -/
theorem C7_join_dropped (s : String) (user : Option JoinPayload)
    (st : ServerState) (h : validId user = none) :
    joinHandler s user st = (st, []) :=
  joinHandler_invalid s user st h

/-- C7 witness: a join with an absent payload leaves a nonempty state
untouched and emits nothing. -/
theorem C7_witness :
    joinHandler "s1" none ⟨[⟨"A", none, "sA"⟩], []⟩
      = (⟨[⟨"A", none, "sA"⟩], []⟩, []) :=
  C7_join_dropped "s1" none ⟨[⟨"A", none, "sA"⟩], []⟩ rfl

/-- C8: every online-users broadcast carries exactly the registry at the
moment of broadcast: the join emit is the updated registry itself, which
contains an entry for the joining id with the new socket; the disconnect
emits are the filtered registry itself, which has no entry left for the
removed connection. -/
theorem C8_broadcast_snapshot (st : ServerState) (s uid : String)
    (nm : Option String) (h : uid ≠ "") :
    (joinHandler s (some ⟨some uid, nm⟩) st).2
      = [⟨Target.all, "online-users",
          Payload.users (joinHandler s (some ⟨some uid, nm⟩) st).1.onlineUsers⟩] ∧
    ((joinHandler s (some ⟨some uid, nm⟩) st).1.onlineUsers.find?
        (fun u => u.userId == uid)).map (fun u => u.socketId) = some s ∧
    (disconnectHandler s st).2
      = [⟨Target.all, "online-users",
          Payload.users (disconnectHandler s st).1.onlineUsers⟩,
         ⟨Target.others, "discounnectUser", Payload.disUser s⟩] ∧
    ∀ u ∈ (disconnectHandler s st).1.onlineUsers, ¬ u.socketId = s := by
  have hv : validId (some ⟨some uid, nm⟩) = some uid := by
    simp [validId, h]
  rw [joinHandler_valid s ⟨some uid, nm⟩ uid st hv]
  refine ⟨rfl, joinUsers_find?_self _ _ _ _, rfl, ?_⟩
  intro u hu
  have hq := (List.mem_filter.mp hu).2
  simpa using hq

/-- C8 witness at a concrete state: B is online on sB with an active
call; u joins from s2 and sB disconnects. -/
theorem C8_witness :
    (joinHandler "s2" (some ⟨some "u", none⟩)
        ⟨[⟨"B", none, "sB"⟩], [(some "B", ⟨some "C", some "sB"⟩)]⟩).2
      = [⟨Target.all, "online-users",
          Payload.users (joinHandler "s2" (some ⟨some "u", none⟩)
            ⟨[⟨"B", none, "sB"⟩],
             [(some "B", ⟨some "C", some "sB"⟩)]⟩).1.onlineUsers⟩] ∧
    ((joinHandler "s2" (some ⟨some "u", none⟩)
        ⟨[⟨"B", none, "sB"⟩],
         [(some "B", ⟨some "C", some "sB"⟩)]⟩).1.onlineUsers.find?
        (fun u => u.userId == "u")).map (fun u => u.socketId) = some "s2" ∧
    (disconnectHandler "s2"
        ⟨[⟨"B", none, "sB"⟩], [(some "B", ⟨some "C", some "sB"⟩)]⟩).2
      = [⟨Target.all, "online-users",
          Payload.users (disconnectHandler "s2"
            ⟨[⟨"B", none, "sB"⟩],
             [(some "B", ⟨some "C", some "sB"⟩)]⟩).1.onlineUsers⟩,
         ⟨Target.others, "discounnectUser", Payload.disUser "s2"⟩] ∧
    ∀ u ∈ (disconnectHandler "s2"
        ⟨[⟨"B", none, "sB"⟩],
         [(some "B", ⟨some "C", some "sB"⟩)]⟩).1.onlineUsers,
      ¬ u.socketId = "s2" :=
  C8_broadcast_snapshot ⟨[⟨"B", none, "sB"⟩],
    [(some "B", ⟨some "C", some "sB"⟩)]⟩ "s2" "u" none (by decide)

/-- C9: the callToUser handler mutates neither the registry nor the
ledger in any branch: the state component of its result is the input
state. -/
theorem C9_callToUser_pure (data : CallPayload) (st : ServerState) :
    (callToUser data st).1 = st := by
  simp only [callToUser]
  cases st.onlineUsers.find? (fun u => some u.userId == data.callToUserId) with
  | none => rfl
  | some callee =>
    by_cases hb : mapHas st.activeCalls data.callToUserId <;> simp [hb]

/-- C10: a disconnect of a connection with no registry entry changes
nothing: the registry and ledger are returned as-is, yet the handler
still broadcasts the unchanged online-users list to all clients and the
discounnectUser notice carrying the raw socket id to the others. -/
theorem C10_disconnect_unjoined (st : ServerState) (s : String)
    (h : ∀ u ∈ st.onlineUsers, ¬ u.socketId = s) :
    disconnectHandler s st
      = (st, [⟨Target.all, "online-users", Payload.users st.onlineUsers⟩,
              ⟨Target.others, "discounnectUser", Payload.disUser s⟩]) := by
  have hf : st.onlineUsers.find? (fun u => u.socketId == s) = none := by
    rw [List.find?_eq_none]
    intro u hu
    simpa using h u hu
  have hfl : st.onlineUsers.filter (fun u => !(u.socketId == s))
      = st.onlineUsers := by
    rw [List.filter_eq_self]
    intro u hu
    simpa using h u hu
  simp only [disconnectHandler, hf, hfl]

/-- C10 witness: socket sX never joined; the state with A online and an
active call survives the disconnect unchanged, with both notices sent. -/
theorem C10_witness :
    disconnectHandler "sX"
        ⟨[⟨"A", none, "sA"⟩], [(some "A", ⟨some "B", some "sA"⟩)]⟩
      = (⟨[⟨"A", none, "sA"⟩], [(some "A", ⟨some "B", some "sA"⟩)]⟩,
         [⟨Target.all, "online-users",
           Payload.users [⟨"A", none, "sA"⟩]⟩,
          ⟨Target.others, "discounnectUser", Payload.disUser "sX"⟩]) :=
  C10_disconnect_unjoined ⟨[⟨"A", none, "sA"⟩],
    [(some "A", ⟨some "B", some "sA"⟩)]⟩ "sX" (by decide)
